import Mathlib

/-!
# The request pipeline of `minimal-template/go/main.go`

A shallow embedding of the Go program in `minimal-template/go/main.go` and of
the parts of its libraries that decide how it answers a request:

* `encoding/json`: the scanner (`scanner.go`) and what `Decoder.Decode` stores
  into a `map[string]interface{}` (`stream.go`, `decode.go`);
* `gin`: the response writer (`response_writer.go`), the handler chain and the
  context methods the program calls (`context.go`), route registration
  (`routergroup.go`) and `Engine.ServeHTTP` (`gin.go`);
* `os.Getenv`, `godotenv.Load` and `log`, as far as `main` uses them.

Conventions. Go strings and request bodies are taken as sequences of Unicode
scalar values (a body that is valid UTF-8). A response body is the list of the
JSON documents written to it, in the order of the writes. A handler is a
function of the continuation `c.Next` and of the context; a result `none`
stands for a run that did not return within the fuel given.
-/

namespace MinimalTemplate

/-! ## Go values -/

/-- A finite IEEE-754 binary64 number `(-1)^neg * mant * 2^exp`, kept in lowest
terms: `mant` is odd, or `mant = 0` and `exp = 0`. -/
structure Float64 where
  neg : Bool
  mant : Nat
  exp : Int
deriving DecidableEq, Repr

/-- What `encoding/json` stores into an `interface{}`, and what a `gin.H`
literal holds: `nil`, `bool`, `float64`, `string`, `[]interface{}`,
`map[string]interface{}`. A map is kept as its entries sorted by key, the order
in which `json.Marshal` writes them. -/
inductive Value where
  | null
  | bool (b : Bool)
  | number (f : Float64)
  | string (s : String)
  | array (xs : List Value)
  | object (m : List (String × Value))
deriving Repr

/-- Go `map[string]interface{}`. -/
abbrev Map := List (String × Value)

/-- Go string comparison `a < b` (lexicographic; on valid UTF-8 the order of
the bytes is the order of the code points). -/
def ltChars : List Char → List Char → Bool
  | [], [] => false
  | [], _ :: _ => true
  | _ :: _, [] => false
  | a :: as, b :: bs => if a.toNat < b.toNat then true else if b.toNat < a.toNat then false else ltChars as bs

/-- Assignment `m[k] = v` on a map held sorted by key. -/
def Map.set : Map → String → Value → Map
  | [], k, v => [(k, v)]
  | (k1, v1) :: m, k, v =>
    if k = k1 then (k, v) :: m
    else if ltChars k.data k1.data then (k, v) :: (k1, v1) :: m
    else (k1, v1) :: Map.set m k v

/-- A `gin.H{...}` literal: the map holding the listed entries. -/
def H (entries : List (String × Value)) : Value :=
  Value.object (entries.foldl (fun m kv => Map.set m kv.1 kv.2) [])

/-- A `[]string{...}` literal as a JSON array of strings. -/
def strings (xs : List String) : Value :=
  Value.array (xs.map Value.string)

/-! ## strconv.ParseFloat on a JSON number -/

/-- Floor of the binary logarithm, `0` for `0`; `fuel` bounds the bit length. -/
def log2Fuel : Nat → Nat → Nat
  | 0, _ => 0
  | fuel + 1, n => if n < 2 then 0 else log2Fuel fuel (n / 2) + 1

/-- Whether `num / den ≥ 2 ^ l`. -/
def geTwoPow (num den : Nat) (l : Int) : Bool :=
  if 0 ≤ l then decide (den * 2 ^ l.toNat ≤ num) else decide (den ≤ num * 2 ^ (-l).toNat)

/-- The binary64 number nearest to `num / den` (ties to even), `none` when the
rounded value is out of range (`strconv.ErrRange`: the value is at least
`2^1024 - 2^970`). Underflow gives a subnormal number or zero, without error. -/
def Float64.round (neg : Bool) (num den : Nat) : Option Float64 :=
  if num = 0 then some ⟨neg, 0, 0⟩
  else
    let l : Int := (log2Fuel num num : Int) - (log2Fuel den den : Int)
    let e : Int := if geTwoPow num den l then l else l - 1
    let p : Int := max (e - 52) (-1074)
    let a : Nat := if 0 ≤ p then num else num * 2 ^ (-p).toNat
    let b : Nat := if 0 ≤ p then den * 2 ^ p.toNat else den
    let q0 : Nat := a / b
    let r : Nat := a % b
    let q : Nat := if b < 2 * r ∨ (2 * r = b ∧ q0 % 2 = 1) then q0 + 1 else q0
    if 971 < p ∨ (p = 971 ∧ q = 2 ^ 53) then none
    else if q = 0 then some ⟨neg, 0, 0⟩
    else
      let g : Nat := Nat.gcd q (2 ^ 53)
      some ⟨neg, q / g, p + (log2Fuel g g : Int)⟩

/-- The parts of a JSON number literal `-?int(.frac)?([eE][+-]?exp)?` as the
scanner reads them: `mant` is the digits of `int` and `frac` read as one
integer, `scale` the number of digits of `frac`. -/
structure Number where
  neg : Bool := false
  mant : Nat := 0
  scale : Nat := 0
  expNeg : Bool := false
  exp : Nat := 0
deriving DecidableEq, Repr

/-- Go `strconv.ParseFloat(s, 64)` on a JSON number literal: the value
`mant * 10 ^ (±exp - scale)`, rounded. -/
def Number.parseFloat (n : Number) : Option Float64 :=
  let x : Int := (if n.expNeg then -(n.exp : Int) else (n.exp : Int)) - (n.scale : Int)
  if 0 ≤ x then Float64.round n.neg (n.mant * 10 ^ x.toNat) 1
  else Float64.round n.neg n.mant (10 ^ (-x).toNat)

/-! ## encoding/json: the scanner, with the values the decoder builds -/

/-- The errors `Decoder.Decode` returns: `io.EOF`, `io.ErrUnexpectedEOF`,
`*json.SyntaxError` ("invalid character c context") and
`*json.UnmarshalTypeError` ("cannot unmarshal value into Go value"). -/
inductive DecodeError where
  | EOF
  | ErrUnexpectedEOF
  | SyntaxError (c : Char) (context : String)
  | UnmarshalTypeError (value : String)
deriving DecidableEq, Repr

/-- One unit of a string literal as the scanner reads it: a character (plain
or from a one-letter escape), or the value of a `\uXXXX` escape. -/
inductive StrUnit where
  | char (c : Char)
  | esc (u : Nat)
deriving DecidableEq, Repr

/-- What `unquote` (decode.go) makes of the units of a literal: a `\uXXXX`
escape is its character, a high surrogate directly followed by a low one is the
character of the pair, any other surrogate is U+FFFD. -/
def decodeUnits : List StrUnit → List Char
  | [] => []
  | StrUnit.char c :: rest => c :: decodeUnits rest
  | [StrUnit.esc u] =>
    if 0xd800 ≤ u ∧ u < 0xe000 then [Char.ofNat 0xfffd] else [Char.ofNat u]
  | StrUnit.esc u :: StrUnit.char c :: rest =>
    (if 0xd800 ≤ u ∧ u < 0xe000 then Char.ofNat 0xfffd else Char.ofNat u) :: c :: decodeUnits rest
  | StrUnit.esc u :: StrUnit.esc u1 :: rest =>
    if 0xd800 ≤ u ∧ u < 0xdc00 ∧ 0xdc00 ≤ u1 ∧ u1 < 0xe000 then
      Char.ofNat ((u - 0xd800) * 0x400 + (u1 - 0xdc00) + 0x10000) :: decodeUnits rest
    else
      (if 0xd800 ≤ u ∧ u < 0xe000 then Char.ofNat 0xfffd else Char.ofNat u)
        :: decodeUnits (StrUnit.esc u1 :: rest)

/-- The step functions of scanner.go, by name. -/
inductive Step where
  | stateBeginValueOrEmpty | stateBeginValue | stateBeginStringOrEmpty | stateBeginString
  | stateEndValue | stateEndTop
  | stateInString | stateInStringEsc
  | stateInStringEscU | stateInStringEscU1 | stateInStringEscU12 | stateInStringEscU123
  | stateNeg | state1 | state0 | stateDot | stateDot0 | stateE | stateESign | stateE0
  | stateT | stateTr | stateTru
  | stateF | stateFa | stateFal | stateFals
  | stateN | stateNu | stateNul
deriving DecidableEq, Repr

/-- An entry of the scanner's `parseState` stack (`parseObjectKey`,
`parseObjectValue`, `parseArrayValue`), holding what the decoder has stored so
far into the composite value being read: the map and the current key, or the
elements of the array. -/
inductive Frame where
  | parseObjectKey (m : Map) (key : String)
  | parseObjectValue (m : Map) (key : String)
  | parseArrayValue (xs : List Value)

/-- What the decoder makes of a completed top-level value when the target is
a `map[string]interface{}`: the map of a JSON object; of any other value only
its kind matters (`null` leaves the map nil, the others cannot be stored). -/
inductive Top where
  | null
  | bool
  | number
  | string
  | array
  | object (m : Map)

/-- The top-level outcome for a value. -/
def Top.ofValue : Value → Top
  | Value.null => Top.null
  | Value.bool _ => Top.bool
  | Value.number _ => Top.number
  | Value.string _ => Top.string
  | Value.array _ => Top.array
  | Value.object m => Top.object m

/-- The scanner of scanner.go together with the decoder state of decode.go.
`top` is the last completed top-level value, `units`, `hex` and `num` hold
the literal being read, `savedError` is `decodeState.savedError`. -/
structure Scanner where
  step : Step := Step.stateBeginValue
  parseState : List Frame := []
  top : Top := Top.null
  units : List StrUnit := []
  hex : Nat := 0
  num : Number := {}
  savedError : Option DecodeError := none

/-- scanner.go `maxNestingDepth`. -/
def maxNestingDepth : Nat := 10000

/-- encoding/json `isSpace`. -/
def isSpace (c : Char) : Prop := c = ' ' ∨ c = '\t' ∨ c = '\r' ∨ c = '\n'

instance (c : Char) : Decidable (isSpace c) := by unfold isSpace; infer_instance

/-- The value of a decimal digit. -/
def digit? (c : Char) : Option Nat :=
  if '0' ≤ c ∧ c ≤ '9' then some (c.toNat - '0'.toNat) else none

/-- The value of a hexadecimal digit (`0-9`, `a-f`, `A-F`). -/
def hexDigit? (c : Char) : Option Nat :=
  if '0' ≤ c ∧ c ≤ '9' then some (c.toNat - '0'.toNat)
  else if 'a' ≤ c ∧ c ≤ 'f' then some (c.toNat - 'a'.toNat + 10)
  else if 'A' ≤ c ∧ c ≤ 'F' then some (c.toNat - 'A'.toNat + 10)
  else none

/-- The decoder stores a completed value: into the array or under the current
key of the map being read, or as the top-level value. The scanner goes on in
`stateEndValue`. -/
def Scanner.store (s : Scanner) (v : Value) : Scanner :=
  match s.parseState with
  | [] => { s with top := Top.ofValue v, step := Step.stateEndValue }
  | Frame.parseObjectValue m k :: ps =>
    { s with parseState := Frame.parseObjectValue (Map.set m k v) k :: ps, step := Step.stateEndValue }
  | Frame.parseArrayValue xs :: ps =>
    { s with parseState := Frame.parseArrayValue (xs ++ [v]) :: ps, step := Step.stateEndValue }
  | Frame.parseObjectKey _ _ :: _ => { s with step := Step.stateEndValue }

/-- scanner.go `pushParseState`. -/
def Scanner.pushParseState (s : Scanner) (c : Char) (f : Frame) (next : Step) : Except DecodeError Scanner :=
  if s.parseState.length + 1 ≤ maxNestingDepth then
    Except.ok { s with parseState := f :: s.parseState, step := next }
  else Except.error (DecodeError.SyntaxError c "exceeded max depth")

/-- scanner.go `popParseState`, with the composite value `v` that ends here
stored into what encloses it. -/
def Scanner.popParseState (s : Scanner) (ps : List Frame) (v : Value) : Scanner :=
  let s1 := Scanner.store { s with parseState := ps } v
  match ps with
  | [] => { s1 with step := Step.stateEndTop }
  | _ :: _ => { s1 with step := Step.stateEndValue }

/-- scanner.go `stateEndValue`. -/
def Scanner.stateEndValue (s : Scanner) (c : Char) : Except DecodeError Scanner :=
  match s.parseState with
  | [] => Except.ok { s with step := Step.stateEndTop }
  | f :: ps =>
    if isSpace c then Except.ok { s with step := Step.stateEndValue }
    else
      match f with
      | Frame.parseObjectKey m k =>
        if c = ':' then
          Except.ok { s with parseState := Frame.parseObjectValue m k :: ps, step := Step.stateBeginValue }
        else Except.error (DecodeError.SyntaxError c "after object key")
      | Frame.parseObjectValue m _ =>
        if c = ',' then
          Except.ok { s with parseState := Frame.parseObjectKey m "" :: ps, step := Step.stateBeginString }
        else if c = '}' then Except.ok (s.popParseState ps (Value.object m))
        else Except.error (DecodeError.SyntaxError c "after object key:value pair")
      | Frame.parseArrayValue xs =>
        if c = ',' then Except.ok { s with step := Step.stateBeginValue }
        else if c = ']' then Except.ok (s.popParseState ps (Value.array xs))
        else Except.error (DecodeError.SyntaxError c "after array element")

/-- scanner.go `stateBeginValue`. -/
def Scanner.stateBeginValue (s : Scanner) (c : Char) : Except DecodeError Scanner :=
  if isSpace c then Except.ok s
  else if c = '{' then s.pushParseState c (Frame.parseObjectKey [] "") Step.stateBeginStringOrEmpty
  else if c = '[' then s.pushParseState c (Frame.parseArrayValue []) Step.stateBeginValueOrEmpty
  else if c = '"' then Except.ok { s with step := Step.stateInString, units := [] }
  else if c = '-' then Except.ok { s with step := Step.stateNeg, num := { neg := true } }
  else if c = '0' then Except.ok { s with step := Step.state0, num := {} }
  else if c = 't' then Except.ok { s with step := Step.stateT }
  else if c = 'f' then Except.ok { s with step := Step.stateF }
  else if c = 'n' then Except.ok { s with step := Step.stateN }
  else
    match digit? c with
    | some d => Except.ok { s with step := Step.state1, num := { mant := d } }
    | none => Except.error (DecodeError.SyntaxError c "looking for beginning of value")

/-- The end of a number literal, then `stateEndValue` reads `c`. Inside an
object or array `convertNumber` (decode.go) gives the `float64`, or saves the
error when the literal is out of range and leaves `nil`. A top-level number is
not converted: it cannot be stored in a map. -/
def Scanner.endNumber (s : Scanner) (c : Char) : Except DecodeError Scanner :=
  match s.parseState with
  | [] => Scanner.stateEndValue { s with top := Top.number, step := Step.stateEndValue } c
  | _ :: _ =>
    match s.num.parseFloat with
    | some f => (s.store (Value.number f)).stateEndValue c
    | none =>
      let e := match s.savedError with
        | some e0 => e0
        | none => DecodeError.UnmarshalTypeError "number"
      (Scanner.store { s with savedError := some e } Value.null).stateEndValue c

/-- scanner.go `state0`: after the integer part of a number. -/
def Scanner.state0 (s : Scanner) (c : Char) : Except DecodeError Scanner :=
  if c = '.' then Except.ok { s with step := Step.stateDot }
  else if c = 'e' ∨ c = 'E' then Except.ok { s with step := Step.stateE }
  else s.endNumber c

/-- scanner.go `stateESign`: after `e` and its sign. -/
def Scanner.stateESign (s : Scanner) (c : Char) : Except DecodeError Scanner :=
  match digit? c with
  | some d => Except.ok { s with step := Step.stateE0, num := { s.num with exp := d } }
  | none => Except.error (DecodeError.SyntaxError c "in exponent of numeric literal")

/-- The end of a string literal: the key of the map being read, or a value. -/
def Scanner.endString (s : Scanner) : Scanner :=
  let str := String.mk (decodeUnits s.units.reverse)
  match s.parseState with
  | Frame.parseObjectKey m _ :: ps =>
    { s with parseState := Frame.parseObjectKey m str :: ps, step := Step.stateEndValue }
  | _ => s.store (Value.string str)

/-- One of the `\u` escape states: a hexadecimal digit, then `next`. -/
def Scanner.hexStep (s : Scanner) (c : Char) (next : Step) : Except DecodeError Scanner :=
  match hexDigit? c with
  | some d => Except.ok { s with hex := s.hex * 16 + d, step := next }
  | none => Except.error (DecodeError.SyntaxError c "in \\u hexadecimal character escape")

/-- One letter of `true`, `false` or `null`. -/
def Scanner.letter (s : Scanner) (c expected : Char) (context : String) (next : Step) : Except DecodeError Scanner :=
  if c = expected then Except.ok { s with step := next }
  else Except.error (DecodeError.SyntaxError c context)

/-- The last letter of `true`, `false` or `null`: the literal's value is stored. -/
def Scanner.lastLetter (s : Scanner) (c expected : Char) (context : String) (v : Value) : Except DecodeError Scanner :=
  if c = expected then Except.ok (s.store v)
  else Except.error (DecodeError.SyntaxError c context)

/-- One call `s.step(s, c)` of the scanner. -/
def Scanner.scan (s : Scanner) (c : Char) : Except DecodeError Scanner :=
  match s.step with
  | Step.stateBeginValue => s.stateBeginValue c
  | Step.stateBeginValueOrEmpty =>
    if isSpace c then Except.ok s
    else if c = ']' then s.stateEndValue c
    else s.stateBeginValue c
  | Step.stateBeginStringOrEmpty =>
    if isSpace c then Except.ok s
    else if c = '}' then
      match s.parseState with
      | Frame.parseObjectKey m k :: ps =>
        Scanner.stateEndValue { s with parseState := Frame.parseObjectValue m k :: ps } c
      | _ => s.stateEndValue c
    else if c = '"' then Except.ok { s with step := Step.stateInString, units := [] }
    else Except.error (DecodeError.SyntaxError c "looking for beginning of object key string")
  | Step.stateBeginString =>
    if isSpace c then Except.ok s
    else if c = '"' then Except.ok { s with step := Step.stateInString, units := [] }
    else Except.error (DecodeError.SyntaxError c "looking for beginning of object key string")
  | Step.stateEndValue => s.stateEndValue c
  | Step.stateEndTop => Except.ok s
  | Step.stateInString =>
    if c = '"' then Except.ok s.endString
    else if c = '\\' then Except.ok { s with step := Step.stateInStringEsc }
    else if c.toNat < 0x20 then Except.error (DecodeError.SyntaxError c "in string literal")
    else Except.ok { s with units := StrUnit.char c :: s.units }
  | Step.stateInStringEsc =>
    if c = 'b' then Except.ok { s with units := StrUnit.char (Char.ofNat 8) :: s.units, step := Step.stateInString }
    else if c = 'f' then Except.ok { s with units := StrUnit.char (Char.ofNat 12) :: s.units, step := Step.stateInString }
    else if c = 'n' then Except.ok { s with units := StrUnit.char '\n' :: s.units, step := Step.stateInString }
    else if c = 'r' then Except.ok { s with units := StrUnit.char '\r' :: s.units, step := Step.stateInString }
    else if c = 't' then Except.ok { s with units := StrUnit.char '\t' :: s.units, step := Step.stateInString }
    else if c = '\\' ∨ c = '/' ∨ c = '"' then
      Except.ok { s with units := StrUnit.char c :: s.units, step := Step.stateInString }
    else if c = 'u' then Except.ok { s with hex := 0, step := Step.stateInStringEscU }
    else Except.error (DecodeError.SyntaxError c "in string escape code")
  | Step.stateInStringEscU => s.hexStep c Step.stateInStringEscU1
  | Step.stateInStringEscU1 => s.hexStep c Step.stateInStringEscU12
  | Step.stateInStringEscU12 => s.hexStep c Step.stateInStringEscU123
  | Step.stateInStringEscU123 =>
    match hexDigit? c with
    | some d => Except.ok { s with units := StrUnit.esc (s.hex * 16 + d) :: s.units, step := Step.stateInString }
    | none => Except.error (DecodeError.SyntaxError c "in \\u hexadecimal character escape")
  | Step.stateNeg =>
    if c = '0' then Except.ok { s with step := Step.state0 }
    else
      match digit? c with
      | some d => Except.ok { s with step := Step.state1, num := { s.num with mant := d } }
      | none => Except.error (DecodeError.SyntaxError c "in numeric literal")
  | Step.state1 =>
    match digit? c with
    | some d => Except.ok { s with num := { s.num with mant := s.num.mant * 10 + d } }
    | none => s.state0 c
  | Step.state0 => s.state0 c
  | Step.stateDot =>
    match digit? c with
    | some d =>
      Except.ok { s with step := Step.stateDot0,
                         num := { s.num with mant := s.num.mant * 10 + d, scale := s.num.scale + 1 } }
    | none => Except.error (DecodeError.SyntaxError c "after decimal point in numeric literal")
  | Step.stateDot0 =>
    match digit? c with
    | some d =>
      Except.ok { s with num := { s.num with mant := s.num.mant * 10 + d, scale := s.num.scale + 1 } }
    | none =>
      if c = 'e' ∨ c = 'E' then Except.ok { s with step := Step.stateE }
      else s.endNumber c
  | Step.stateE =>
    if c = '+' then Except.ok { s with step := Step.stateESign }
    else if c = '-' then Except.ok { s with step := Step.stateESign, num := { s.num with expNeg := true } }
    else s.stateESign c
  | Step.stateESign => s.stateESign c
  | Step.stateE0 =>
    match digit? c with
    | some d => Except.ok { s with num := { s.num with exp := s.num.exp * 10 + d } }
    | none => s.endNumber c
  | Step.stateT => s.letter c 'r' "in literal true (expecting 'r')" Step.stateTr
  | Step.stateTr => s.letter c 'u' "in literal true (expecting 'u')" Step.stateTru
  | Step.stateTru => s.lastLetter c 'e' "in literal true (expecting 'e')" (Value.bool true)
  | Step.stateF => s.letter c 'a' "in literal false (expecting 'a')" Step.stateFa
  | Step.stateFa => s.letter c 'l' "in literal false (expecting 'l')" Step.stateFal
  | Step.stateFal => s.letter c 's' "in literal false (expecting 's')" Step.stateFals
  | Step.stateFals => s.lastLetter c 'e' "in literal false (expecting 'e')" (Value.bool false)
  | Step.stateN => s.letter c 'u' "in literal null (expecting 'u')" Step.stateNu
  | Step.stateNu => s.letter c 'l' "in literal null (expecting 'l')" Step.stateNul
  | Step.stateNul => s.lastLetter c 'l' "in literal null (expecting 'l')" Value.null

/-- stream.go `Decoder.readValue`: the scanner reads the body up to the end of
its first JSON value. At the end of the body the scanner is given a space; a
body that ends before the value does gives `io.ErrUnexpectedEOF`, or `io.EOF`
when it holds nothing but space (`nonSpace` tells which). -/
def readValue : Scanner → List Char → Bool → Except DecodeError Scanner
  | s, [], nonSpace =>
    match s.scan ' ' with
    | Except.ok s1 =>
      if s1.step = Step.stateEndTop then Except.ok s1
      else Except.error (if nonSpace then DecodeError.ErrUnexpectedEOF else DecodeError.EOF)
    | Except.error _ => Except.error (if nonSpace then DecodeError.ErrUnexpectedEOF else DecodeError.EOF)
  | s, c :: rest, nonSpace =>
    match s.scan c with
    | Except.error e => Except.error e
    | Except.ok s1 => if s1.step = Step.stateEndTop then Except.ok s1 else readValue s1 rest nonSpace

/-- decode.go `decodeState.unmarshal` for a target of type
`*map[string]interface{}`: a JSON object is stored as a map (`some m`), `null`
leaves the nil map (`none`), any other value is an `UnmarshalTypeError`. The
error saved while an object was read (a number out of range) is returned after
the object. -/
def unmarshal (s : Scanner) : Except DecodeError (Option Map) :=
  match s.top with
  | Top.object m =>
    match s.savedError with
    | some e => Except.error e
    | none => Except.ok (some m)
  | Top.null => Except.ok none
  | Top.bool => Except.error (DecodeError.UnmarshalTypeError "bool")
  | Top.number => Except.error (DecodeError.UnmarshalTypeError "number")
  | Top.string => Except.error (DecodeError.UnmarshalTypeError "string")
  | Top.array => Except.error (DecodeError.UnmarshalTypeError "array")

/-- The call `json.NewDecoder(body).Decode(&requestBody)` with `requestBody` a
nil `map[string]interface{}`: the error, or the map stored. -/
def Decode (body : List Char) : Except DecodeError (Option Map) :=
  match readValue {} body (body.any (fun c => decide (¬ isSpace c))) with
  | Except.error e => Except.error e
  | Except.ok s => unmarshal s

/-! ## net/http and gin -/

/-- textproto `CanonicalMIMEHeaderKey` on a key of letters, digits and `-`:
the first letter and each letter after a `-` in upper case, the others in lower
case. `upper` tells whether the next letter is one of the former. -/
def canonicalMIMEHeaderKey : Bool → List Char → List Char
  | _, [] => []
  | upper, c :: cs =>
    (if upper = true ∧ 'a' ≤ c ∧ c ≤ 'z' then Char.ofNat (c.toNat - 32)
     else if upper = false ∧ 'A' ≤ c ∧ c ≤ 'Z' then Char.ofNat (c.toNat + 32)
     else c) :: canonicalMIMEHeaderKey (decide (c = '-')) cs

/-- Go `http.Header`: the values of each header, under its canonical name. -/
abbrev Header := List (String × List String)

/-- Go `Header.Get`: the first value under the canonical form of `key`, or
the empty string when there is none. -/
def Header.Get (h : Header) (key : String) : String :=
  match h.lookup (String.mk (canonicalMIMEHeaderKey true key.data)) with
  | some (v :: _) => v
  | _ => ""

/-- The parts of an `http.Request` the program reads. -/
structure Request where
  Method : String
  Path : String
  Header : Header
  Body : List Char

/-- What the client receives: the status line and the JSON documents written
to the body, in the order of the writes. -/
structure Response where
  Status : Nat
  Body : List Value

/-- gin `responseWriter`: `status` is the field `w.status`; `wire` is what the
underlying `http.ResponseWriter` has sent, `none` while the header is not
written (gin's `size == noWritten`). -/
structure ResponseWriter where
  status : Nat := 200
  wire : Option Response := none

/-- gin `responseWriter.Written`. -/
def ResponseWriter.Written (w : ResponseWriter) : Bool := w.wire.isSome

/-- gin `responseWriter.WriteHeader`: once the header is written the status
is not changed (gin only prints a warning). -/
def ResponseWriter.WriteHeader (w : ResponseWriter) (code : Nat) : ResponseWriter :=
  if 0 < code ∧ w.status ≠ code then
    if w.Written = true then w else { w with status := code }
  else w

/-- gin `responseWriter.WriteHeaderNow`. -/
def ResponseWriter.WriteHeaderNow (w : ResponseWriter) : ResponseWriter :=
  if w.Written = true then w else { w with wire := some { Status := w.status, Body := [] } }

/-- gin `responseWriter.Write`, for the bytes of one JSON document. -/
def ResponseWriter.Write (w : ResponseWriter) (doc : Value) : ResponseWriter :=
  let w1 := w.WriteHeaderNow
  { w1 with wire := w1.wire.map (fun r => { r with Body := r.Body ++ [doc] }) }

/-- gin `ErrorType`, the two values used here. -/
inductive ErrorType where
  | ErrorTypeBind
  | ErrorTypePrivate
deriving DecidableEq, Repr

/-- gin `Error`: the error and its type (`Err`, `Type`). -/
structure Error where
  Err : DecodeError
  ErrType : ErrorType
deriving DecidableEq, Repr

/-- A line written through package `log`. -/
inductive LogLine where
  | Println (text : String)
  | Printf (format : String) (err : DecodeError)
  | Fatal (text : String)
deriving DecidableEq, Repr

/-- gin `Context`, with the clock reading `time.Now().Format(time.RFC3339)` of
the request (`Now`) and the lines the handlers have logged (`Log`). -/
structure Context where
  Request : Request
  Writer : ResponseWriter := {}
  index : Int := -1
  Errors : List Error := []
  Now : String := ""
  Log : List LogLine := []

def StatusOK : Nat := 200
def StatusBadRequest : Nat := 400
def StatusUnauthorized : Nat := 401
def StatusInternalServerError : Nat := 500

/-- gin `abortIndex` (`math.MaxInt8 >> 1`). -/
def abortIndex : Int := 63

/-- gin `Context.GetHeader`. -/
def Context.GetHeader (c : Context) (key : String) : String := c.Request.Header.Get key

/-- gin `Context.Status`. -/
def Context.Status (c : Context) (code : Nat) : Context :=
  { c with Writer := c.Writer.WriteHeader code }

/-- gin `bodyAllowedForStatus`. -/
def bodyAllowedForStatus (status : Nat) : Bool :=
  if 100 ≤ status ∧ status ≤ 199 then false
  else if status = 204 then false
  else if status = 304 then false
  else true

/-- gin `Context.JSON` (`Render` with `render.JSON`): sets the status, then
writes the document. Marshalling a value of type `Value` does not fail. -/
def Context.JSON (c : Context) (code : Nat) (obj : Value) : Context :=
  let c1 := c.Status code
  if bodyAllowedForStatus code = true then { c1 with Writer := c1.Writer.Write obj }
  else { c1 with Writer := c1.Writer.WriteHeaderNow }

/-- gin `Context.Abort`. -/
def Context.Abort (c : Context) : Context := { c with index := abortIndex }

/-- gin `Context.AbortWithStatus`. -/
def Context.AbortWithStatus (c : Context) (code : Nat) : Context :=
  let c1 := c.Status code
  Context.Abort { c1 with Writer := c1.Writer.WriteHeaderNow }

/-- gin `Context.Error` followed by `SetType`. -/
def Context.Error (c : Context) (err : DecodeError) (errType : ErrorType) : Context :=
  { c with Errors := c.Errors ++ [{ Err := err, ErrType := errType }] }

/-- gin `Context.AbortWithError(code, err).SetType(type)`. -/
def Context.AbortWithError (c : Context) (code : Nat) (err : DecodeError) (errType : ErrorType) : Context :=
  (c.AbortWithStatus code).Error err errType

/-- gin `Context.BindJSON(&requestBody)` for a nil `map[string]interface{}`
(`MustBindWith` with `binding.JSON`): the body is decoded; on an error the
request is aborted with status 400 and the error is recorded in `c.Errors`
with type `ErrorTypeBind`. The default validator accepts every map. -/
def Context.BindJSON (c : Context) : Except DecodeError (Option Map) × Context :=
  match Decode c.Request.Body with
  | Except.error err =>
    (Except.error err, c.AbortWithError StatusBadRequest err ErrorType.ErrorTypeBind)
  | Except.ok requestBody => (Except.ok requestBody, c)

/-- gin `HandlerFunc`. The first argument is `c.Next` for the chain the
handler stands in; `none` is a call that does not return. -/
abbrev HandlerFunc := (Context → Option Context) → Context → Option Context

/-- The loop of gin `Context.Next`:
`for c.index < len(c.handlers) { c.handlers[c.index](c); c.index++ }`. The
handler called is given `c.Next` with the fuel that is left. -/
def runHandlers (handlers : List HandlerFunc) : Nat → Context → Option Context
  | 0, c => if c.index < handlers.length then none else some c
  | fuel + 1, c =>
    if c.index < handlers.length then
      match (if 0 ≤ c.index then handlers.get? c.index.toNat else none) with
      | none => none
      | some h =>
        match h (fun c1 => runHandlers handlers fuel { c1 with index := c1.index + 1 }) c with
        | none => none
        | some c1 => runHandlers handlers fuel { c1 with index := c1.index + 1 }
    else some c

/-- gin `Context.Next`: `c.index++`, then the loop. -/
def Next (handlers : List HandlerFunc) (fuel : Nat) (c : Context) : Option Context :=
  runHandlers handlers fuel { c with index := c.index + 1 }

/-- A Go map of type `map[string]interface{}` as a value: the nil map is
marshalled as `null`. -/
def mapValue : Option Map → Value
  | none => Value.null
  | some m => Value.object m

/-! ## os and godotenv -/

/-- The process environment (`os.Environ`). -/
abbrev Environ := List (String × String)

/-- Go `os.Getenv`: the value of the variable, empty when it is not set. -/
def Getenv (env : Environ) (key : String) : String :=
  match env.lookup key with
  | some v => v
  | none => ""

/-- Go `godotenv.Load()`: `file` is the parsed `.env` file, `none` when it
cannot be read. Each of its variables that the environment does not hold yet
is set. The boolean tells whether the load succeeded. -/
def godotenvLoad (file : Option (List (String × String))) (env : Environ) : Environ × Bool :=
  match file with
  | none => (env, false)
  | some vars =>
    (vars.foldl (fun e kv => if (env.lookup kv.1).isSome = true then e else (kv.1, kv.2) :: e) env, true)

/-! ## main.go -/

/-- main.go `authMiddleware`. -/
def authMiddleware (env : Environ) : HandlerFunc :=
  let sspAPIKey := Getenv env "SSP_API_KEY"
  fun Next c =>
    let apiKey := c.GetHeader "X-API-Key"
    if apiKey = "" ∨ apiKey ≠ sspAPIKey then
      some (Context.Abort (c.JSON StatusUnauthorized (H [
        ("error", Value.bool true),
        ("message", Value.string "Unauthorized - Invalid or missing API key")])))
    else Next c

/-- main.go `healthHandler`. -/
def healthHandler : HandlerFunc := fun _ c =>
  some (c.JSON StatusOK (H [
    ("status", Value.string "ok"),
    ("version", Value.string "1.0.0"),
    ("timestamp", Value.string c.Now)]))

/-- main.go `capabilitiesHandler`. -/
def capabilitiesHandler : HandlerFunc := fun _ c =>
  some (c.JSON StatusOK (H [
    ("supported_methods", strings ["your_methods_here"]),
    ("supported_currencies", strings ["USD", "INR"]),
    ("features", strings ["feature1", "feature2"])]))

/-- main.go `yourEndpointHandler`. -/
def yourEndpointHandler : HandlerFunc := fun _ c =>
  match c.BindJSON with
  | (Except.error _, c1) =>
    some (c1.JSON StatusBadRequest (H [
      ("error", Value.bool true),
      ("message", Value.string "Invalid JSON request body")]))
  | (Except.ok requestBody, c1) =>
    some (c1.JSON StatusOK (H [
      ("success", Value.bool true),
      ("message", Value.string "Request processed successfully"),
      ("data", mapValue requestBody)]))

/-- main.go `errorHandler`. -/
def errorHandler : HandlerFunc := fun Next c =>
  match Next c with
  | none => none
  | some c1 =>
    if 0 < c1.Errors.length then
      match c1.Errors.getLast? with
      | none => none
      | some err =>
        some (Context.JSON { c1 with Log := c1.Log ++ [LogLine.Printf "Error: %v" err.Err] }
          StatusInternalServerError (H [
            ("error", Value.bool true),
            ("message", Value.string "Internal server error")]))
    else some c1

/-- gin `Logger()`: calls `c.Next()`, then prints the access line to gin's
writer; the context is left as the chain left it. -/
def Logger : HandlerFunc := fun Next c => Next c

/-- gin `Recovery()`: calls `c.Next()` under a `recover`; no handler of this
program panics. -/
def Recovery : HandlerFunc := fun Next c => Next c

/-- A registered route: method, path and the chain `combineHandlers` built. -/
structure Route where
  Method : String
  Path : String
  Handlers : List HandlerFunc

/-- gin `RouterGroup`: the middleware of the group. Every group of the
program has the base path `/`. -/
structure RouterGroup where
  Handlers : List HandlerFunc

/-- gin `Engine`: its own router group and the routes registered. -/
structure Engine where
  group : RouterGroup
  trees : List Route

/-- gin `Default()`: a new engine using `Logger()` and `Recovery()`. -/
def Default : Engine := { group := { Handlers := [Logger, Recovery] }, trees := [] }

/-- gin `RouterGroup.Use`. -/
def RouterGroup.Use (group : RouterGroup) (middleware : HandlerFunc) : RouterGroup :=
  { group with Handlers := group.Handlers ++ [middleware] }

/-- gin `Engine.Use`. -/
def Engine.Use (engine : Engine) (middleware : HandlerFunc) : Engine :=
  { engine with group := engine.group.Use middleware }

/-- gin `RouterGroup.Group("/")`: a group that starts with the handlers of
its parent. -/
def Engine.Group (engine : Engine) : RouterGroup := { Handlers := engine.group.Handlers }

/-- gin `RouterGroup.handle`: the route gets the handlers of the group, then
the handler given. -/
def Engine.handle (engine : Engine) (group : RouterGroup) (method path : String) (handler : HandlerFunc) : Engine :=
  { engine with trees := engine.trees ++ [{ Method := method, Path := path, Handlers := group.Handlers ++ [handler] }] }

/-- The router as `main` sets it up, from `gin.Default()` to the last
registration, with `endpoint` registered for `POST /your-endpoint`. -/
def newRouterWith (env : Environ) (endpoint : HandlerFunc) : Engine :=
  let router := Default
  let router := router.Use errorHandler
  let router := router.handle router.group "GET" "/health" healthHandler
  let router := router.handle router.group "GET" "/capabilities" capabilitiesHandler
  let protectedGroup := router.Group
  let protectedGroup := protectedGroup.Use (authMiddleware env)
  router.handle protectedGroup "POST" "/your-endpoint" endpoint

/-- The router of main.go. -/
def newRouter (env : Environ) : Engine := newRouterWith env yourEndpointHandler

/-- How a request ends: the chain of its route returned and `c` holds the
response sent; or no handler is registered for the method and path (gin then
answers by itself); or the chain did not return. -/
inductive Served where
  | done (c : Context)
  | noRoute
  | stuck

/-- The handlers registered for a method and path. -/
def Engine.getValue (engine : Engine) (method path : String) : Option (List HandlerFunc) :=
  match engine.trees.find? (fun r => decide (r.Method = method ∧ r.Path = path)) with
  | some r => some r.Handlers
  | none => none

/-- gin `Engine.ServeHTTP` for a request whose route is registered: a fresh
context, the chain of the route, then `WriteHeaderNow`. -/
def Engine.ServeHTTP (engine : Engine) (req : Request) (now : String) : Served :=
  match engine.getValue req.Method req.Path with
  | none => Served.noRoute
  | some handlers =>
    match Next handlers (handlers.length + 1) { Request := req, Now := now } with
    | none => Served.stuck
    | some c => Served.done { c with Writer := c.Writer.WriteHeaderNow }

/-- The response a served request sent. -/
def Served.response : Served → Option Response
  | Served.done c => c.Writer.wire
  | _ => none

/-- The state of the process when `main` has run: what was logged, the router
once `gin.Default()` has made it, the address once the listener is bound and
serves, the exit status once the process has ended. -/
structure Process where
  Log : List LogLine := []
  releaseMode : Bool := false
  router : Option Engine := none
  listener : Option String := none
  exit : Option Nat := none

/-- main.go `main`. `environ` is the environment of the process, `dotenv` the
`.env` file (see `godotenvLoad`), `listen` tells whether `router.Run` can bind
the address. -/
def main (environ : Environ) (dotenv : Option (List (String × String))) (listen : String → Bool) : Process :=
  let loaded := godotenvLoad dotenv environ
  let env := loaded.1
  let p : Process := {}
  let p := if loaded.2 = true then p
    else { p with Log := p.Log ++ [LogLine.Println "Warning: .env file not found, using system environment variables"] }
  if Getenv env "SSP_API_KEY" = "" then
    { p with Log := p.Log ++ [LogLine.Fatal "SSP_API_KEY environment variable is required"], exit := some 1 }
  else
    let p := if Getenv env "GIN_MODE" = "" then { p with releaseMode := true } else p
    let p := { p with router := some (newRouter env) }
    let port := if Getenv env "PORT" = "" then "3000" else Getenv env "PORT"
    let p := { p with Log := p.Log ++ [
      LogLine.Println ("SSP Plugin Server starting on port " ++ port),
      LogLine.Println ("Health: http://localhost:" ++ port ++ "/health"),
      LogLine.Println ("Capabilities: http://localhost:" ++ port ++ "/capabilities")] }
    if listen (":" ++ port) = true then { p with listener := some (":" ++ port) }
    else { p with Log := p.Log ++ [LogLine.Fatal "Failed to start server: %v"], exit := some 1 }

/-! ## The JSON documents of the responses -/

/-- The document `{"error":true,"message":"Unauthorized - Invalid or missing API key"}`. -/
def unauthorizedBody : Value := Value.object [
  ("error", Value.bool true),
  ("message", Value.string "Unauthorized - Invalid or missing API key")]

/-- The document `{"error":true,"message":"Invalid JSON request body"}`. -/
def invalidJSONBody : Value := Value.object [
  ("error", Value.bool true),
  ("message", Value.string "Invalid JSON request body")]

/-- The document `{"error":true,"message":"Internal server error"}`. -/
def internalServerErrorBody : Value := Value.object [
  ("error", Value.bool true),
  ("message", Value.string "Internal server error")]

/-- The document with exactly the fields `success = true`,
`message = "Request processed successfully"` and `data`. -/
def successBody (data : Value) : Value := Value.object [
  ("data", data),
  ("message", Value.string "Request processed successfully"),
  ("success", Value.bool true)]

/-- The document of `/health` at the clock reading `now`. -/
def healthBody (now : String) : Value := Value.object [
  ("status", Value.string "ok"),
  ("timestamp", Value.string now),
  ("version", Value.string "1.0.0")]

/-- The document of `/capabilities`. -/
def capabilitiesBody : Value := Value.object [
  ("features", Value.array [Value.string "feature1", Value.string "feature2"]),
  ("supported_currencies", Value.array [Value.string "USD", Value.string "INR"]),
  ("supported_methods", Value.array [Value.string "your_methods_here"])]

/-- The context `authMiddleware` leaves when it rejects a request. -/
def rejected (c : Context) : Context :=
  Context.Abort (c.JSON StatusUnauthorized unauthorizedBody)

/-- The first character of a body that is not white space. -/
def firstSignificant : List Char → Option Char
  | [] => none
  | c :: rest => if isSpace c then firstSignificant rest else some c

/-! ## Scanner states of a value that is not a map -/

/-- Whether the entry is that of an array being read. -/
def Frame.isArray : Frame → Bool
  | Frame.parseArrayValue _ => true
  | _ => false

/-- Whether the outermost composite value being read is an array. -/
def bottomIsArray : List Frame → Bool
  | [] => false
  | [f] => f.isArray
  | _ :: f :: ps => bottomIsArray (f :: ps)

/-- The top-level outcomes that `unmarshal` accepts: an object, or `null`. -/
def Top.isMap : Top → Bool
  | Top.object _ => true
  | Top.null => true
  | _ => false

/-- The scanner states inside a string, a number, `true` or `false`. -/
def Step.inLiteral : Step → Bool
  | Step.stateInString | Step.stateInStringEsc | Step.stateInStringEscU | Step.stateInStringEscU1
  | Step.stateInStringEscU12 | Step.stateInStringEscU123
  | Step.stateNeg | Step.state1 | Step.state0 | Step.stateDot | Step.stateDot0
  | Step.stateE | Step.stateESign | Step.stateE0
  | Step.stateT | Step.stateTr | Step.stateTru
  | Step.stateF | Step.stateFa | Step.stateFal | Step.stateFals => true
  | _ => false

/-- The scanner is reading, or has just read, a top-level value that is a
string, a number, a boolean or an array. -/
def Scanner.nonMap (s : Scanner) : Prop :=
  match s.parseState with
  | [] => s.step.inLiteral = true
      ∨ ((s.step = Step.stateEndValue ∨ s.step = Step.stateEndTop) ∧ s.top.isMap = false)
  | f :: ps => bottomIsArray (f :: ps) = true ∧ s.step ≠ Step.stateEndTop

/-! ## The documents the handlers build -/

theorem H_unauthorized :
    H [("error", Value.bool true),
       ("message", Value.string "Unauthorized - Invalid or missing API key")] = unauthorizedBody := rfl

theorem H_invalidJSON :
    H [("error", Value.bool true),
       ("message", Value.string "Invalid JSON request body")] = invalidJSONBody := rfl

theorem H_internalServerError :
    H [("error", Value.bool true),
       ("message", Value.string "Internal server error")] = internalServerErrorBody := rfl

theorem H_success (data : Value) :
    H [("success", Value.bool true),
       ("message", Value.string "Request processed successfully"),
       ("data", data)] = successBody data := rfl

theorem H_health (now : String) :
    H [("status", Value.string "ok"),
       ("version", Value.string "1.0.0"),
       ("timestamp", Value.string now)] = healthBody now := rfl

theorem H_capabilities :
    H [("supported_methods", strings ["your_methods_here"]),
       ("supported_currencies", strings ["USD", "INR"]),
       ("features", strings ["feature1", "feature2"])] = capabilitiesBody := rfl

theorem canonical_apiKey :
    String.mk (canonicalMIMEHeaderKey true "X-API-Key".data) = "X-Api-Key" := by decide

/-! ## The authentication gate -/

theorem GetHeader_apiKey (c : Context) :
    c.GetHeader "X-API-Key" =
      match c.Request.Header.lookup "X-Api-Key" with
      | some (v :: _) => v
      | _ => "" := by
  unfold Context.GetHeader Header.Get
  rw [canonical_apiKey]

theorem authMiddleware_pass (env : Environ) (Next : Context → Option Context) (c : Context)
    (h1 : c.GetHeader "X-API-Key" ≠ "") (h2 : c.GetHeader "X-API-Key" = Getenv env "SSP_API_KEY") :
    authMiddleware env Next c = Next c := by
  simp [authMiddleware, h1, h2.symm]

theorem authMiddleware_reject (env : Environ) (Next : Context → Option Context) (c : Context)
    (h : c.GetHeader "X-API-Key" = "" ∨ c.GetHeader "X-API-Key" ≠ Getenv env "SSP_API_KEY") :
    authMiddleware env Next c = some (rejected c) := by
  simp only [authMiddleware, rejected, H_unauthorized]
  rw [if_pos h]

/-- C6. With a non-empty configured key, `authMiddleware` passes control to
the next stage (it returns what `c.Next` returns on the unchanged context, for
every continuation) if and only if the `X-API-Key` header is present with the
configured key as its value; otherwise it answers 401 and aborts. -/
theorem authMiddleware_passes_iff (env : Environ) (c : Context)
    (hkey : Getenv env "SSP_API_KEY" ≠ "") :
    ((∀ Next : Context → Option Context, authMiddleware env Next c = Next c)
        ↔ ∃ vs, c.Request.Header.lookup "X-Api-Key" = some (Getenv env "SSP_API_KEY" :: vs))
      ∧ ((¬ ∃ vs, c.Request.Header.lookup "X-Api-Key" = some (Getenv env "SSP_API_KEY" :: vs))
        → ∀ Next : Context → Option Context, authMiddleware env Next c = some (rejected c)) := by
  have hget := GetHeader_apiKey c
  have key : (∃ vs, c.Request.Header.lookup "X-Api-Key" = some (Getenv env "SSP_API_KEY" :: vs))
      ↔ c.GetHeader "X-API-Key" = Getenv env "SSP_API_KEY" := by
    rw [hget]
    constructor
    · rintro ⟨vs, h⟩
      rw [h]
    · intro h
      cases hl : c.Request.Header.lookup "X-Api-Key" with
      | none => rw [hl] at h; exact absurd h.symm hkey
      | some vs =>
        cases vs with
        | nil => rw [hl] at h; exact absurd h.symm hkey
        | cons v tl => rw [hl] at h; exact ⟨tl, by rw [show v = _ from h]⟩
  refine ⟨⟨?_, ?_⟩, ?_⟩
  · intro hpass
    rw [key]
    by_contra hne
    have h1 := hpass (fun _ => none)
    rw [authMiddleware_reject env _ c (Or.inr hne)] at h1
    exact Option.noConfusion h1
  · intro hex Next
    have heq := key.mp hex
    exact authMiddleware_pass env Next c (by rw [heq]; exact hkey) heq
  · intro hno Next
    exact authMiddleware_reject env Next c (Or.inr (fun heq => hno (key.mpr heq)))

/-- C10. The gate fails closed: for every configured key, the empty one
included, if `authMiddleware` passes control then the header value is
non-empty and equal to the key; with the empty key every request is rejected,
and a rejection writes the 401 document. -/
theorem authMiddleware_fails_closed (env : Environ) (c : Context) :
    ((∀ Next : Context → Option Context, authMiddleware env Next c = Next c)
        → c.GetHeader "X-API-Key" ≠ "" ∧ c.GetHeader "X-API-Key" = Getenv env "SSP_API_KEY")
      ∧ (Getenv env "SSP_API_KEY" = ""
        → ∀ Next : Context → Option Context, authMiddleware env Next c = some (rejected c))
      ∧ (rejected c).Writer.wire.map (fun r => r.Body.getLast?) = some (some unauthorizedBody)
      ∧ (c.Writer.Written = false →
          (rejected c).Writer.wire = some { Status := 401, Body := [unauthorizedBody] }) := by
  refine ⟨?_, ?_, ?_, ?_⟩
  · intro hpass
    by_contra hne
    have hrej : c.GetHeader "X-API-Key" = "" ∨ c.GetHeader "X-API-Key" ≠ Getenv env "SSP_API_KEY" := by
      by_cases h1 : c.GetHeader "X-API-Key" = ""
      · exact Or.inl h1
      · right
        intro h2
        exact hne ⟨h1, h2⟩
    have h1 := hpass (fun _ => none)
    rw [authMiddleware_reject env _ c hrej] at h1
    exact Option.noConfusion h1
  · intro hempty Next
    apply authMiddleware_reject
    by_cases h1 : c.GetHeader "X-API-Key" = ""
    · exact Or.inl h1
    · right
      rw [hempty]
      exact h1
  · cases hw : c.Writer.wire <;>
      simp [rejected, Context.JSON, Context.Abort, Context.Status, bodyAllowedForStatus, StatusUnauthorized,
        ResponseWriter.Write, ResponseWriter.WriteHeaderNow, ResponseWriter.WriteHeader,
        ResponseWriter.Written, hw]
    all_goals (split <;> simp_all)
  · intro hw
    cases hw1 : c.Writer.wire with
    | none =>
      simp [rejected, Context.JSON, Context.Abort, Context.Status, bodyAllowedForStatus, StatusUnauthorized,
        ResponseWriter.Write, ResponseWriter.WriteHeaderNow, ResponseWriter.WriteHeader,
        ResponseWriter.Written, hw1]
      split <;> simp_all
    | some r => simp [ResponseWriter.Written, hw1] at hw

theorem authMiddleware_passes_iff_witness :
    ((∀ Next : Context → Option Context,
          authMiddleware [("SSP_API_KEY", "secret")] Next
            { Request := { Method := "POST", Path := "/your-endpoint",
                           Header := [("X-Api-Key", ["secret"])], Body := [] } }
          = Next { Request := { Method := "POST", Path := "/your-endpoint",
                                Header := [("X-Api-Key", ["secret"])], Body := [] } })
        ↔ ∃ vs, List.lookup "X-Api-Key" [("X-Api-Key", ["secret"])]
            = some (Getenv [("SSP_API_KEY", "secret")] "SSP_API_KEY" :: vs)) :=
  (authMiddleware_passes_iff [("SSP_API_KEY", "secret")]
    { Request := { Method := "POST", Path := "/your-endpoint",
                   Header := [("X-Api-Key", ["secret"])], Body := [] } } (by decide)).1

theorem authMiddleware_fails_closed_witness :
    ∀ Next : Context → Option Context,
      authMiddleware [] Next
        { Request := { Method := "POST", Path := "/your-endpoint",
                       Header := [("X-Api-Key", [""])], Body := [] } }
      = some (rejected { Request := { Method := "POST", Path := "/your-endpoint",
                                      Header := [("X-Api-Key", [""])], Body := [] } }) :=
  (authMiddleware_fails_closed []
    { Request := { Method := "POST", Path := "/your-endpoint",
                   Header := [("X-Api-Key", [""])], Body := [] } }).2.1 rfl

/-! ## Requests without the key -/

/-- C1. A `POST /your-endpoint` request whose `X-API-Key` header is missing,
empty or different from the configured key is answered, by the whole pipeline
of `main`, with status 401 and the single document
`{"error":true,"message":"Unauthorized - Invalid or missing API key"}`,
whatever its body; and the outcome is the same whichever handler is registered
for the endpoint, so `yourEndpointHandler` does not run. -/
theorem unauthorized_request_rejected (env : Environ) (req : Request) (now : String)
    (hm : req.Method = "POST") (hp : req.Path = "/your-endpoint")
    (hk : req.Header.Get "X-API-Key" = "" ∨ req.Header.Get "X-API-Key" ≠ Getenv env "SSP_API_KEY") :
    ((newRouter env).ServeHTTP req now).response
        = some { Status := 401, Body := [unauthorizedBody] }
      ∧ ∀ endpoint : HandlerFunc,
          (newRouterWith env endpoint).ServeHTTP req now = (newRouter env).ServeHTTP req now := by
  constructor
  · simp [newRouter, Engine.ServeHTTP, Engine.getValue, newRouterWith, Engine.handle, Engine.Use, RouterGroup.Use,
      Engine.Group, Default, hm, hp, Next, runHandlers, Logger, Recovery, errorHandler, authMiddleware,
      Context.GetHeader, hk, Context.JSON, Context.Abort, Context.Status, abortIndex, bodyAllowedForStatus,
      StatusUnauthorized, Served.response, ResponseWriter.Write, ResponseWriter.WriteHeaderNow,
      ResponseWriter.WriteHeader, ResponseWriter.Written, H_unauthorized]
  · intro endpoint
    simp [newRouter, Engine.ServeHTTP, Engine.getValue, newRouterWith, Engine.handle, Engine.Use, RouterGroup.Use,
      Engine.Group, Default, hm, hp, Next, runHandlers, Logger, Recovery, errorHandler, authMiddleware,
      Context.GetHeader, hk, Context.JSON, Context.Abort, Context.Status, abortIndex, bodyAllowedForStatus,
      StatusUnauthorized, Served.response, ResponseWriter.Write, ResponseWriter.WriteHeaderNow,
      ResponseWriter.WriteHeader, ResponseWriter.Written, H_unauthorized]

theorem unauthorized_request_rejected_witness :
    ((newRouter [("SSP_API_KEY", "secret")]).ServeHTTP
        { Method := "POST", Path := "/your-endpoint", Header := [("X-Api-Key", ["guess"])],
          Body := "\x7b\"a\":1\x7d".data } "").response
        = some { Status := 401, Body := [unauthorizedBody] }
      ∧ ∀ endpoint : HandlerFunc,
          (newRouterWith [("SSP_API_KEY", "secret")] endpoint).ServeHTTP
            { Method := "POST", Path := "/your-endpoint", Header := [("X-Api-Key", ["guess"])],
              Body := "\x7b\"a\":1\x7d".data } ""
          = (newRouter [("SSP_API_KEY", "secret")]).ServeHTTP
            { Method := "POST", Path := "/your-endpoint", Header := [("X-Api-Key", ["guess"])],
              Body := "\x7b\"a\":1\x7d".data } "" :=
  unauthorized_request_rejected [("SSP_API_KEY", "secret")]
    { Method := "POST", Path := "/your-endpoint", Header := [("X-Api-Key", ["guess"])],
      Body := "\x7b\"a\":1\x7d".data } "" rfl rfl (Or.inr (by decide))

/-! ## The error wrapper -/

theorem errorHandler_some (Next : Context → Option Context) (c c1 : Context) (e : Error) (es : List Error)
    (h : Next c = some c1) (he : c1.Errors.getLast? = some e) (hes : c1.Errors = es) (hne : es ≠ []) :
    errorHandler Next c =
      some (Context.JSON { c1 with Log := c1.Log ++ [LogLine.Printf "Error: %v" e.Err] }
        StatusInternalServerError internalServerErrorBody) := by
  have hlen : 0 < c1.Errors.length := by
    rw [hes]; exact List.length_pos.mpr hne
  simp only [errorHandler, h, hlen, if_true, he, H_internalServerError]

/-- C7. For every outcome `c1` of the inner chain: when no error is recorded
`errorHandler` returns `c1` as it is; when an error is recorded and no response
is written yet, the response is status 500 with the single document
`{"error":true,"message":"Internal server error"}`, in which nothing of the
recorded error appears. -/
theorem errorHandler_contract (Next : Context → Option Context) (c c1 : Context)
    (h : Next c = some c1) :
    (c1.Errors = [] → errorHandler Next c = some c1)
      ∧ (c1.Errors ≠ [] → c1.Writer.Written = false →
          ∃ c2, errorHandler Next c = some c2
            ∧ c2.Writer.wire = some { Status := 500, Body := [internalServerErrorBody] }) := by
  constructor
  · intro he
    simp [errorHandler, h, he]
  · intro hne hw
    obtain ⟨e, he⟩ : ∃ e, c1.Errors.getLast? = some e := by
      cases hl : c1.Errors.getLast? with
      | none => exact absurd (List.getLast?_eq_none_iff.mp hl) hne
      | some e => exact ⟨e, rfl⟩
    refine ⟨_, errorHandler_some Next c c1 e c1.Errors h he rfl hne, ?_⟩
    cases hw1 : c1.Writer.wire with
    | none =>
      simp [Context.JSON, Context.Status, bodyAllowedForStatus, StatusInternalServerError,
        ResponseWriter.Write, ResponseWriter.WriteHeaderNow, ResponseWriter.WriteHeader,
        ResponseWriter.Written, hw1]
      split <;> simp_all
    | some r => simp [ResponseWriter.Written, hw1] at hw

theorem errorHandler_contract_witness :
    ∃ c2, errorHandler (fun c => some (c.Error DecodeError.EOF ErrorType.ErrorTypePrivate))
        { Request := { Method := "GET", Path := "/", Header := [], Body := [] } } = some c2
      ∧ c2.Writer.wire = some { Status := 500, Body := [internalServerErrorBody] } :=
  (errorHandler_contract (fun c => some (c.Error DecodeError.EOF ErrorType.ErrorTypePrivate))
    { Request := { Method := "GET", Path := "/", Header := [], Body := [] } }
    (Context.Error { Request := { Method := "GET", Path := "/", Header := [], Body := [] } }
      DecodeError.EOF ErrorType.ErrorTypePrivate) rfl).2 (by simp [Context.Error]) rfl

/-! ## The routes -/

/-- C3. The pipeline at a `POST /your-endpoint` request with the right key and
an empty body: `BindJSON` records the bind error in `c.Errors` and sends the
header with status 400, the handler writes the invalid-JSON document, and
`errorHandler` then writes its own document after it. -/
theorem bind_failure_reaches_errorHandler :
    ((newRouter [("SSP_API_KEY", "secret")]).ServeHTTP
        { Method := "POST", Path := "/your-endpoint", Header := [("X-Api-Key", ["secret"])], Body := [] }
        "").response
      = some { Status := 400, Body := [invalidJSONBody, internalServerErrorBody] } := rfl

/-- C2. `errorHandler` over an inner stage that has written a response and
recorded an error (`yourEndpointHandler` on an empty body): the inner response
is status 400 with one document, the final one carries a second document. -/
theorem errorHandler_appends_to_written_response :
    (yourEndpointHandler (fun c => some c)
        { Request := { Method := "POST", Path := "/your-endpoint", Header := [], Body := [] } }).map
          (fun c => (c.Writer.wire, c.Errors))
        = some (some { Status := 400, Body := [invalidJSONBody] },
                [{ Err := DecodeError.EOF, ErrType := ErrorType.ErrorTypeBind }])
      ∧ (errorHandler (yourEndpointHandler (fun c => some c))
        { Request := { Method := "POST", Path := "/your-endpoint", Header := [], Body := [] } }).map
          (fun c => c.Writer.wire)
        = some (some { Status := 400, Body := [invalidJSONBody, internalServerErrorBody] }) :=
  ⟨rfl, rfl⟩

/-- C8. For a `GET` request to `/health` or `/capabilities`, whatever its
headers and whatever the environment holds as key, the chain of the route is
`Logger`, `Recovery`, `errorHandler` and the handler (no `authMiddleware`), and
the response is status 200 with the health document (`status` "ok",
`version` "1.0.0", the clock reading) or the fixed capabilities document. -/
theorem public_routes (env : Environ) (req : Request) (now : String) (hm : req.Method = "GET") :
    (req.Path = "/health" →
        (newRouter env).getValue req.Method req.Path = some [Logger, Recovery, errorHandler, healthHandler]
        ∧ ((newRouter env).ServeHTTP req now).response = some { Status := 200, Body := [healthBody now] })
      ∧ (req.Path = "/capabilities" →
        (newRouter env).getValue req.Method req.Path
            = some [Logger, Recovery, errorHandler, capabilitiesHandler]
        ∧ ((newRouter env).ServeHTTP req now).response
            = some { Status := 200, Body := [capabilitiesBody] }) := by
  constructor
  · intro hp
    constructor
    · simp [newRouter, Engine.getValue, newRouterWith, Engine.handle, Engine.Use, RouterGroup.Use,
        Engine.Group, Default, hm, hp]
    · simp [newRouter, Engine.ServeHTTP, Engine.getValue, newRouterWith, Engine.handle, Engine.Use,
        RouterGroup.Use, Engine.Group, Default, hm, hp, Next, runHandlers, Logger, Recovery, errorHandler,
        healthHandler, Context.JSON, Context.Status, bodyAllowedForStatus,
        StatusOK, Served.response, ResponseWriter.Write, ResponseWriter.WriteHeaderNow,
        ResponseWriter.WriteHeader, ResponseWriter.Written, H_health]
  · intro hp
    constructor
    · simp [newRouter, Engine.getValue, newRouterWith, Engine.handle, Engine.Use, RouterGroup.Use,
        Engine.Group, Default, hm, hp]
    · simp [newRouter, Engine.ServeHTTP, Engine.getValue, newRouterWith, Engine.handle, Engine.Use,
        RouterGroup.Use, Engine.Group, Default, hm, hp, Next, runHandlers, Logger, Recovery, errorHandler,
        capabilitiesHandler, Context.JSON, Context.Status, bodyAllowedForStatus,
        StatusOK, Served.response, ResponseWriter.Write, ResponseWriter.WriteHeaderNow,
        ResponseWriter.WriteHeader, ResponseWriter.Written, H_capabilities]

/-- C5. For a `POST /your-endpoint` request with the right key: when the body
decodes to the JSON object `o`, the response is status 200 with the single
document of fields `success = true`, `message = "Request processed
successfully"` and `data = o`; for the body `{"a":1}` the data is `{"a":1}`. -/
theorem endpoint_echoes_object (env : Environ) (req : Request) (now : String)
    (hm : req.Method = "POST") (hp : req.Path = "/your-endpoint")
    (hkey : Getenv env "SSP_API_KEY" ≠ "")
    (hk : req.Header.Get "X-API-Key" = Getenv env "SSP_API_KEY") :
    (∀ o : Map, Decode req.Body = Except.ok (some o) →
        ((newRouter env).ServeHTTP req now).response
          = some { Status := 200, Body := [successBody (Value.object o)] })
      ∧ (req.Body = "\x7b\"a\":1\x7d".data →
        ((newRouter env).ServeHTTP req now).response
          = some { Status := 200, Body := [successBody (Value.object [
              ("a", Value.number { neg := false, mant := 1, exp := 0 })])] }) := by
  have hk1 : req.Header.Get "X-API-Key" ≠ "" := by rw [hk]; exact hkey
  have main : ∀ o : Map, Decode req.Body = Except.ok (some o) →
      ((newRouter env).ServeHTTP req now).response
        = some { Status := 200, Body := [successBody (Value.object o)] } := by
    intro o hbody
    simp [newRouter, Engine.ServeHTTP, Engine.getValue, newRouterWith, Engine.handle, Engine.Use,
      RouterGroup.Use, Engine.Group, Default, hm, hp, Next, runHandlers, Logger, Recovery, errorHandler,
      authMiddleware, Context.GetHeader, hk1, hk.symm, yourEndpointHandler, Context.BindJSON, hbody,
      mapValue, Context.JSON, Context.Status, bodyAllowedForStatus, StatusOK, Served.response,
      ResponseWriter.Write, ResponseWriter.WriteHeaderNow, ResponseWriter.WriteHeader,
      ResponseWriter.Written, H_success]
  refine ⟨main, ?_⟩
  intro hb
  apply main
  rw [hb]
  rfl

theorem endpoint_echoes_object_witness :
    ((newRouter [("SSP_API_KEY", "secret")]).ServeHTTP
        { Method := "POST", Path := "/your-endpoint", Header := [("X-Api-Key", ["secret"])],
          Body := "\x7b\"a\":1\x7d".data } "").response
      = some { Status := 200, Body := [successBody (Value.object [
          ("a", Value.number { neg := false, mant := 1, exp := 0 })])] } :=
  (endpoint_echoes_object [("SSP_API_KEY", "secret")]
    { Method := "POST", Path := "/your-endpoint", Header := [("X-Api-Key", ["secret"])],
      Body := "\x7b\"a\":1\x7d".data } "" rfl rfl (by decide) rfl).2 rfl

theorem public_routes_witness :
    (newRouter [("SSP_API_KEY", "secret")]).getValue "GET" "/health"
        = some [Logger, Recovery, errorHandler, healthHandler]
      ∧ ((newRouter [("SSP_API_KEY", "secret")]).ServeHTTP
          { Method := "GET", Path := "/health", Header := [("X-Api-Key", ["guess"])], Body := [] }
          "2026-11-04T00:00:00Z").response
        = some { Status := 200, Body := [healthBody "2026-11-04T00:00:00Z"] } :=
  (public_routes [("SSP_API_KEY", "secret")]
    { Method := "GET", Path := "/health", Header := [("X-Api-Key", ["guess"])], Body := [] }
    "2026-11-04T00:00:00Z" rfl).1 rfl

/-! ## Startup -/

/-- C9. `main` over the environment left by the `.env` load: when
`SSP_API_KEY` is unset or empty the process ends with status 1 after the fatal
line, with no router made and no listener bound; and whenever the listener is
bound and serves, the key is non-empty and the router is the one `main` builds
from that environment. -/
theorem main_requires_key (environ : Environ) (dotenv : Option (List (String × String)))
    (listen : String → Bool) :
    (Getenv (godotenvLoad dotenv environ).1 "SSP_API_KEY" = "" →
        (main environ dotenv listen).exit = some 1
        ∧ (main environ dotenv listen).router.isNone = true
        ∧ (main environ dotenv listen).listener = none
        ∧ (main environ dotenv listen).Log.getLast?
            = some (LogLine.Fatal "SSP_API_KEY environment variable is required"))
      ∧ (∀ addr, (main environ dotenv listen).listener = some addr →
        Getenv (godotenvLoad dotenv environ).1 "SSP_API_KEY" ≠ ""
        ∧ (main environ dotenv listen).exit = none
        ∧ ∀ req now, (main environ dotenv listen).router.map (fun r => (r.ServeHTTP req now).response)
            = some (((newRouter (godotenvLoad dotenv environ).1).ServeHTTP req now).response)) := by
  constructor
  · intro hkey
    unfold main
    simp only [hkey, if_true]
    split_ifs <;> simp
  · intro addr
    unfold main
    by_cases hkey : Getenv (godotenvLoad dotenv environ).1 "SSP_API_KEY" = ""
    · simp only [hkey, if_true]
      split_ifs <;> simp
    · simp only [hkey, if_false]
      split_ifs <;> simp [hkey]

theorem main_requires_key_witness :
    (main [("PORT", "8080")] none (fun _ => true)).exit = some 1
      ∧ (main [("PORT", "8080")] none (fun _ => true)).router.isNone = true
      ∧ (main [("PORT", "8080")] none (fun _ => true)).listener = none
      ∧ (main [("PORT", "8080")] none (fun _ => true)).Log.getLast?
          = some (LogLine.Fatal "SSP_API_KEY environment variable is required") :=
  (main_requires_key [("PORT", "8080")] none (fun _ => true)).1 (by decide)

/-! ## What the decoder rejects -/

theorem bottomIsArray_head (f g : Frame) (ps : List Frame) (hg : bottomIsArray (g :: ps) = true)
    (h : f.isArray = g.isArray) : bottomIsArray (f :: ps) = true := by
  cases ps with
  | nil => simpa [bottomIsArray, h] using hg
  | cons a as => simpa [bottomIsArray] using hg

theorem store_bottom (s : Scanner) (v : Value) (h : bottomIsArray s.parseState = true) :
    bottomIsArray (s.store v).parseState = true ∧ (s.store v).step = Step.stateEndValue := by
  unfold Scanner.store
  split
  · next hps => rw [hps] at h; simp [bottomIsArray] at h
  · next m k ps hps =>
    rw [hps] at h
    exact ⟨bottomIsArray_head _ _ ps h rfl, rfl⟩
  · next xs ps hps =>
    rw [hps] at h
    exact ⟨bottomIsArray_head _ _ ps h rfl, rfl⟩
  · next m k ps hps => exact ⟨h, rfl⟩

theorem nonMap_of_bottom {s : Scanner} (h : bottomIsArray s.parseState = true)
    (hstep : s.step ≠ Step.stateEndTop) : s.nonMap := by
  unfold Scanner.nonMap
  split
  · next hps => rw [hps] at h; simp [bottomIsArray] at h
  · next f ps hps => rw [hps] at h; exact ⟨h, hstep⟩

theorem stateEndValue_nonMap (s s1 : Scanner) (c : Char) (h : bottomIsArray s.parseState = true)
    (hs : s.stateEndValue c = Except.ok s1) : s1.nonMap := by
  unfold Scanner.stateEndValue at hs
  split at hs
  · next hps => rw [hps] at h; simp [bottomIsArray] at h
  · next f ps hps =>
    rw [hps] at h
    split at hs
    · cases hs
      exact nonMap_of_bottom (by simpa [hps] using h) (by simp)
    · split at hs
      · next m k =>
        split at hs
        · cases hs
          exact nonMap_of_bottom (bottomIsArray_head _ _ ps h rfl) (by simp)
        · cases hs
      · next m k =>
        split at hs
        · cases hs
          exact nonMap_of_bottom (bottomIsArray_head _ _ ps h rfl) (by simp)
        · split at hs
          · cases hs
            cases ps with
            | nil => simp [bottomIsArray, Frame.isArray] at h
            | cons f2 ps2 =>
              have hb : bottomIsArray (Scanner.parseState { s with parseState := f2 :: ps2 }) = true := by
                simpa [bottomIsArray] using h
              have := store_bottom { s with parseState := f2 :: ps2 } (Value.object m) hb
              exact nonMap_of_bottom (by simpa [Scanner.popParseState] using this.1)
                (by simp [Scanner.popParseState])
          · cases hs
      · next xs =>
        split at hs
        · cases hs
          exact nonMap_of_bottom (by simpa [hps] using h) (by simp)
        · split at hs
          · cases hs
            cases ps with
            | nil => simp [Scanner.popParseState, Scanner.store, Scanner.nonMap, Top.ofValue, Top.isMap]
            | cons f2 ps2 =>
              have hb : bottomIsArray (Scanner.parseState { s with parseState := f2 :: ps2 }) = true := by
                simpa [bottomIsArray] using h
              have := store_bottom { s with parseState := f2 :: ps2 } (Value.array xs) hb
              exact nonMap_of_bottom (by simpa [Scanner.popParseState] using this.1)
                (by simp [Scanner.popParseState])
          · cases hs


theorem nonMap_nil {s : Scanner} (hps : s.parseState = []) :
    s.nonMap ↔ (s.step.inLiteral = true
      ∨ ((s.step = Step.stateEndValue ∨ s.step = Step.stateEndTop) ∧ s.top.isMap = false)) := by
  unfold Scanner.nonMap
  rw [hps]

theorem nonMap_cons {s : Scanner} {f : Frame} {ps : List Frame} (hps : s.parseState = f :: ps) :
    s.nonMap ↔ (bottomIsArray (f :: ps) = true ∧ s.step ≠ Step.stateEndTop) := by
  unfold Scanner.nonMap
  rw [hps]

theorem scan_nonMap_nil (s s1 : Scanner) (c : Char) (hps : s.parseState = []) (h : s.nonMap)
    (hs : s.scan c = Except.ok s1) : s1.nonMap := by
  rw [nonMap_nil hps] at h
  unfold Scanner.scan at hs
  cases hstep : s.step <;> simp only [hstep, Step.inLiteral] at h hs
  all_goals simp at h
  all_goals try
    simp only [Scanner.state0, Scanner.endNumber, Scanner.stateESign, Scanner.endString,
      Scanner.hexStep, Scanner.letter, Scanner.lastLetter, Scanner.store, Scanner.stateEndValue, hps] at hs
  all_goals repeat' split at hs
  all_goals try cases hs
  all_goals simp_all [Scanner.nonMap, Step.inLiteral, Top.isMap, Top.ofValue]


theorem endNumber_nonMap (s s1 : Scanner) (c : Char) (hb : bottomIsArray s.parseState = true)
    (hs : s.endNumber c = Except.ok s1) : s1.nonMap := by
  unfold Scanner.endNumber at hs
  split at hs
  · next hps => rw [hps] at hb; simp [bottomIsArray] at hb
  · split at hs
    · exact stateEndValue_nonMap _ _ c (store_bottom s _ hb).1 hs
    · exact stateEndValue_nonMap _ _ c (store_bottom _ _ (by simpa using hb)).1 hs

theorem state0_nonMap (s s1 : Scanner) (c : Char) (hb : bottomIsArray s.parseState = true)
    (hs : s.state0 c = Except.ok s1) : s1.nonMap := by
  unfold Scanner.state0 at hs
  split at hs
  · cases hs; exact nonMap_of_bottom (by simpa using hb) (by simp)
  · split at hs
    · cases hs; exact nonMap_of_bottom (by simpa using hb) (by simp)
    · exact endNumber_nonMap s s1 c hb hs

theorem stateESign_nonMap (s s1 : Scanner) (c : Char) (hb : bottomIsArray s.parseState = true)
    (hs : s.stateESign c = Except.ok s1) : s1.nonMap := by
  unfold Scanner.stateESign at hs
  split at hs
  · cases hs; exact nonMap_of_bottom (by simpa using hb) (by simp)
  · cases hs

theorem endString_nonMap (s : Scanner) (hb : bottomIsArray s.parseState = true) :
    s.endString.nonMap := by
  unfold Scanner.endString
  split
  · next m k ps hps =>
    rw [hps] at hb
    exact nonMap_of_bottom (bottomIsArray_head _ _ ps hb rfl) (by simp)
  · have := store_bottom s (Value.string (String.mk (decodeUnits s.units.reverse))) hb
    exact nonMap_of_bottom this.1 (by rw [this.2]; simp)

theorem pushParseState_nonMap (s s1 : Scanner) (c : Char) (f : Frame) (next : Step)
    (hb : bottomIsArray s.parseState = true) (hn : next ≠ Step.stateEndTop)
    (hs : s.pushParseState c f next = Except.ok s1) : s1.nonMap := by
  unfold Scanner.pushParseState at hs
  split at hs
  · cases hs
    refine nonMap_of_bottom ?_ hn
    cases hps : s.parseState with
    | nil => rw [hps] at hb; simp [bottomIsArray] at hb
    | cons g ps => rw [hps] at hb; simpa [bottomIsArray] using hb
  · cases hs

theorem stateBeginValue_nonMap (s s1 : Scanner) (c : Char) (hb : bottomIsArray s.parseState = true)
    (hstep : s.step ≠ Step.stateEndTop)
    (hs : s.stateBeginValue c = Except.ok s1) : s1.nonMap := by
  unfold Scanner.stateBeginValue at hs
  repeat' split at hs
  all_goals first
    | exact pushParseState_nonMap s s1 c _ _ hb (by simp) hs
    | (cases hs; exact nonMap_of_bottom (by simpa using hb) (by simpa using hstep))
    | cases hs

theorem scan_nonMap_cons (s s1 : Scanner) (c : Char) (hb : bottomIsArray s.parseState = true)
    (hstep : s.step ≠ Step.stateEndTop)
    (hs : s.scan c = Except.ok s1) : s1.nonMap := by
  unfold Scanner.scan at hs
  split at hs
  all_goals try simp only [Scanner.hexStep, Scanner.letter, Scanner.lastLetter] at hs
  all_goals repeat' split at hs
  all_goals first
    | (cases hs; done)
    | exact stateBeginValue_nonMap s s1 c hb hstep hs
    | exact stateEndValue_nonMap s s1 c hb hs
    | exact state0_nonMap s s1 c hb hs
    | exact stateESign_nonMap s s1 c hb hs
    | exact endNumber_nonMap s s1 c hb hs
    | (cases hs; exact endString_nonMap s hb)
    | (cases hs; exact nonMap_of_bottom (store_bottom s _ hb).1 (by rw [(store_bottom s _ hb).2]; simp))
    | (cases hs; exact nonMap_of_bottom hb hstep)
    | (cases hs; exact nonMap_of_bottom (by simpa using hb) (by simp))
    | (rename_i m k ps hps
       exact stateEndValue_nonMap _ s1 c
        (show bottomIsArray (Frame.parseObjectValue m k :: ps) = true from
          bottomIsArray_head _ (Frame.parseObjectKey m k) ps (hps ▸ hb) rfl) hs)


theorem scan_nonMap (s s1 : Scanner) (c : Char) (h : s.nonMap) (hs : s.scan c = Except.ok s1) :
    s1.nonMap := by
  cases hps : s.parseState with
  | nil => exact scan_nonMap_nil s s1 c hps h hs
  | cons f ps =>
    rw [nonMap_cons hps] at h
    exact scan_nonMap_cons s s1 c (by rw [hps]; exact h.1) h.2 hs

theorem readValue_nonMap (body : List Char) (nonSpace : Bool) (s s1 : Scanner) (h : s.nonMap)
    (hs : readValue s body nonSpace = Except.ok s1) : s1.nonMap := by
  induction body generalizing s with
  | nil =>
    unfold readValue at hs
    split at hs
    · next s2 h2 =>
      split at hs
      · cases hs; exact scan_nonMap s _ ' ' h h2
      · cases hs
    · cases hs
  | cons c rest ih =>
    unfold readValue at hs
    split at hs
    · cases hs
    · next s2 h2 =>
      split at hs
      · cases hs; exact scan_nonMap s _ c h h2
      · exact ih s2 (scan_nonMap s s2 c h h2) hs

theorem readValue_endTop (body : List Char) (nonSpace : Bool) (s s1 : Scanner)
    (hs : readValue s body nonSpace = Except.ok s1) : s1.step = Step.stateEndTop := by
  induction body generalizing s with
  | nil =>
    unfold readValue at hs
    split at hs
    · split at hs
      · next h => cases hs; exact h
      · cases hs
    · cases hs
  | cons c rest ih =>
    unfold readValue at hs
    split at hs
    · cases hs
    · split at hs
      · next h => cases hs; exact h
      · exact ih _ hs

theorem unmarshal_nonMap (s : Scanner) (h : s.nonMap) (hstep : s.step = Step.stateEndTop) :
    ∃ e, unmarshal s = Except.error e := by
  unfold Scanner.nonMap at h
  split at h
  · rcases h with h | ⟨_, h⟩
    · rw [hstep] at h; simp [Step.inLiteral] at h
    · unfold unmarshal
      cases htop : s.top <;> simp [htop, Top.isMap] at h ⊢
  · exact absurd hstep h.2

theorem scan_init_space (c : Char) (h : isSpace c) : Scanner.scan {} c = Except.ok {} := by
  simp [Scanner.scan, Scanner.stateBeginValue, h]

theorem scan_init_nonMap (c : Char) (s1 : Scanner) (hsp : ¬ isSpace c) (h1 : c ≠ '{') (h2 : c ≠ 'n')
    (hs : Scanner.scan {} c = Except.ok s1) : s1.nonMap := by
  simp only [Scanner.scan, Scanner.stateBeginValue, hsp, h1, h2, if_false, Scanner.pushParseState] at hs
  repeat' split at hs
  all_goals first
    | (cases hs; done)
    | (cases hs; simp [Scanner.nonMap, bottomIsArray, Frame.isArray, Step.inLiteral])

theorem readValue_init_none (body : List Char) (nonSpace : Bool) (h : firstSignificant body = none) :
    ∃ e, readValue {} body nonSpace = Except.error e := by
  induction body with
  | nil => exact ⟨_, by simp [readValue, Scanner.scan, Scanner.stateBeginValue, isSpace]; rfl⟩
  | cons c rest ih =>
    unfold firstSignificant at h
    split at h
    · next hsp =>
      obtain ⟨e, he⟩ := ih h
      refine ⟨e, ?_⟩
      unfold readValue
      rw [scan_init_space c hsp]
      simpa using he
    · cases h

theorem readValue_init_nonMap (body : List Char) (nonSpace : Bool) (s1 : Scanner)
    (h1 : firstSignificant body ≠ some '{') (h2 : firstSignificant body ≠ some 'n')
    (hs : readValue {} body nonSpace = Except.ok s1) : s1.nonMap := by
  induction body with
  | nil =>
    obtain ⟨e, he⟩ := readValue_init_none [] nonSpace rfl
    rw [he] at hs; cases hs
  | cons c rest ih =>
    by_cases hsp : isSpace c
    · have hf : firstSignificant (c :: rest) = firstSignificant rest := by
        simp [firstSignificant, hsp]
      rw [hf] at h1 h2
      apply ih h1 h2
      unfold readValue at hs
      rw [scan_init_space c hsp] at hs
      simpa using hs
    · have hf : firstSignificant (c :: rest) = some c := by
        simp [firstSignificant, hsp]
      rw [hf] at h1 h2
      have hc1 : c ≠ '{' := fun h => h1 (by rw [h])
      have hc2 : c ≠ 'n' := fun h => h2 (by rw [h])
      unfold readValue at hs
      split at hs
      · cases hs
      · next s2 hs2 =>
        have hn := scan_init_nonMap c s2 hsp hc1 hc2 hs2
        split at hs
        · cases hs; exact hn
        · exact readValue_nonMap rest nonSpace s2 s1 hn hs

theorem Decode_error_of_first (body : List Char)
    (h : (firstSignificant body ≠ some '{' ∧ firstSignificant body ≠ some 'n')
      ∨ ∃ e, readValue {} body (body.any (fun c => decide (¬ isSpace c))) = Except.error e) :
    ∃ e, Decode body = Except.error e := by
  unfold Decode
  rcases h with ⟨h1, h2⟩ | ⟨e, he⟩
  · cases hr : readValue {} body (body.any (fun c => decide (¬ isSpace c))) with
    | error e => exact ⟨e, rfl⟩
    | ok s =>
      exact unmarshal_nonMap s (readValue_init_nonMap body _ s h1 h2 hr) (readValue_endTop body _ _ s hr)
  · rw [he]; exact ⟨e, rfl⟩

theorem yourEndpointHandler_bind_error (Next : Context → Option Context) (c : Context) (e : DecodeError)
    (hw : c.Writer.Written = false) (he : Decode c.Request.Body = Except.error e) :
    ∃ c1, yourEndpointHandler Next c = some c1
      ∧ c1.Writer.wire = some { Status := 400, Body := [invalidJSONBody] }
      ∧ c1.Errors = c.Errors ++ [{ Err := e, ErrType := ErrorType.ErrorTypeBind }] := by
  have hw1 : c.Writer.wire = none := by
    cases hw1 : c.Writer.wire with
    | none => rfl
    | some r => simp [ResponseWriter.Written, hw1] at hw
  refine ⟨(c.AbortWithError StatusBadRequest e ErrorType.ErrorTypeBind).JSON StatusBadRequest
    invalidJSONBody, by simp only [yourEndpointHandler, Context.BindJSON, he, H_invalidJSON], ?_, ?_⟩
  · simp [Context.AbortWithError, Context.AbortWithStatus, Context.Error, Context.Abort, Context.JSON,
      Context.Status, bodyAllowedForStatus, StatusBadRequest, ResponseWriter.Write,
      ResponseWriter.WriteHeaderNow, ResponseWriter.WriteHeader, ResponseWriter.Written, hw1]
    split <;> simp_all
  · simp [Context.AbortWithError, Context.AbortWithStatus, Context.Error, Context.Abort, Context.JSON,
      Context.Status, bodyAllowedForStatus, StatusBadRequest]

/-- C4, as amended. `yourEndpointHandler`, on a context with no response
written yet, answers status 400 with the single document
`{"error":true,"message":"Invalid JSON request body"}` (and so no success echo)
when the first significant character of the body is neither `{` nor `n` (an
empty or blank body, a string, an array, a number, `true`, `false`, or no JSON
at all), and when the scanner rejects the first JSON value of the body. -/
theorem non_object_body_rejected (Next : Context → Option Context) (c : Context)
    (hw : c.Writer.Written = false)
    (hbody : (firstSignificant c.Request.Body ≠ some '{' ∧ firstSignificant c.Request.Body ≠ some 'n')
      ∨ ∃ e, readValue {} c.Request.Body (c.Request.Body.any (fun ch => decide (¬ isSpace ch)))
          = Except.error e) :
    ∃ c1, yourEndpointHandler Next c = some c1
      ∧ c1.Writer.wire = some { Status := 400, Body := [invalidJSONBody] } := by
  obtain ⟨e, he⟩ := Decode_error_of_first c.Request.Body hbody
  obtain ⟨c1, h1, h2, _⟩ := yourEndpointHandler_bind_error Next c e hw he
  exact ⟨c1, h1, h2⟩

theorem non_object_body_rejected_witness :
    ∃ c1, yourEndpointHandler (fun c => some c)
        { Request := { Method := "POST", Path := "/your-endpoint", Header := [], Body := "[1,2,3]".data } }
          = some c1
      ∧ c1.Writer.wire = some { Status := 400, Body := [invalidJSONBody] } :=
  non_object_body_rejected (fun c => some c)
    { Request := { Method := "POST", Path := "/your-endpoint", Header := [], Body := "[1,2,3]".data } }
    rfl (Or.inl ⟨by decide, by decide⟩)

/-- C4, counterexample. On the body `null` the handler answers status 200
with the success document and `data = null`, not the 400 document; and a JSON
object followed by text that is not JSON is accepted as that object. -/
theorem null_body_accepted :
    (yourEndpointHandler (fun c => some c)
        { Request := { Method := "POST", Path := "/your-endpoint", Header := [], Body := "null".data } }).map
          (fun c => c.Writer.wire)
        = some (some { Status := 200, Body := [successBody Value.null] })
      ∧ (yourEndpointHandler (fun c => some c)
        { Request := { Method := "POST", Path := "/your-endpoint", Header := [], Body := "null".data } }).map
          (fun c => c.Writer.wire)
        ≠ some (some { Status := 400, Body := [invalidJSONBody] })
      ∧ (yourEndpointHandler (fun c => some c)
        { Request := { Method := "POST", Path := "/your-endpoint", Header := [],
                       Body := "\x7b\"a\":1\x7d trailing".data } }).map
          (fun c => c.Writer.wire)
        = some (some { Status := 200, Body := [successBody (Value.object [
            ("a", Value.number { neg := false, mant := 1, exp := 0 })])] }) := by
  refine ⟨rfl, ?_, rfl⟩
  rw [show (yourEndpointHandler (fun c => some c)
        { Request := { Method := "POST", Path := "/your-endpoint", Header := [], Body := "null".data } }).map
          (fun c => c.Writer.wire)
        = some (some { Status := 200, Body := [successBody Value.null] }) from rfl]
  simp

end MinimalTemplate
